import Mathlib

/-!
Verification of the VM-exit handling core of the Bareflank extended APIs
(`bfvmm/src/hve/arch/intel_x64/vmexit/external_interrupt.cpp` and
`bfvmm/include/hve/arch/intel_x64/vmexit/control_register.h`).

The embedding is shallow: the handler chain, the external-interrupt exit
handler and the VMCS control bits are translated directly from the C++
source; machine integers are `Nat` with an explicit modulus where overflow
matters; C++ exceptions (`throw std::runtime_error`, `std::array::at`
throwing `std::out_of_range`) are `Except.error`.
-/

/-- The modulus 2^64 of the uint64_t fields used by the source. -/
def UINT64_MOD : Nat := 2 ^ 64

/-- The all-ones uint64_t value 2^64 - 1, used to model the C++ bitwise
complement of a 64-bit mask. -/
def UINT64_MASK : Nat := 2 ^ 64 - 1

/-! ## Handler chain

`external_interrupt_handler::handle` iterates `m_handlers` (a
`std::list` grown only by `push_front`) front to back and stops at the
first delegate returning true.  A delegate receives the exit descriptor,
whose only field is the interrupt vector; it is modelled as a function
from the vector to the claim result, tagged with a registration id so
that invocation order is observable in theorems. -/

/-- A registered handler delegate: `f` maps the delivered interrupt vector
to the claim result.  `id` is an observability tag only; dispatch never
consults it. -/
structure Handler where
  id : Nat
  f : Nat → Bool

/-- The dispatch loop of `external_interrupt_handler::handle`
(external_interrupt.cpp lines 107-111): invoke each delegate front to
back, stop at the first returning true.  The first component is the list
of invoked handlers in invocation order (instrumentation; the C++ loop
returns only the boolean). -/
def dispatch : List Handler → Nat → List Handler × Bool
  | [], _ => ([], false)
  | h :: rest, v =>
    match h.f v with
    | true => ([h], true)
    | false =>
      let r := dispatch rest v
      (h :: r.1, r.2)

/-! ## External interrupt handler state

The header declaring the members is not among the reviewed sources; the
member list follows its uses in external_interrupt.cpp and the spec:
`m_handlers` (a `std::list` of delegates), `m_log` (a 256-entry table of
uint64_t counters, accessed with the checked `at`), `m_log_enabled`
(logging flag), and the build flag `ndebug` consulted by
`!ndebug && m_log_enabled`. -/

structure EIState where
  m_handlers : List Handler
  m_log : List Nat
  m_log_enabled : Bool
  ndebug : Bool

/-- Accessor `vmcs_n::vm_exit_interruption_information::vector::get()`: the vector
field occupies bits 7:0 of the exit-interruption-information field, so
`get` returns the field value masked to its low 8 bits. -/
def vector_get (ii : Nat) : Nat := ii % 256

/-- Checked element access `m_log.at(i)` of the counter table, throwing
`std::out_of_range` when the index is out of bounds. -/
def log_at (log : List Nat) (i : Nat) : Except String Nat :=
  if i < log.length then Except.ok (log.getD i 0)
  else Except.error ("std::out_of_range")

/-- Checked increment `m_log.at(i)++`: checked access followed by a uint64_t increment of
the selected counter. -/
def log_inc (log : List Nat) (i : Nat) : Except String (List Nat) :=
  if i < log.length then
    Except.ok (log.set i ((log.getD i 0 + 1) % UINT64_MOD))
  else Except.error ("std::out_of_range")

/-- Method `external_interrupt_handler::add_handler`: `m_handlers.push_front(d)`
(external_interrupt.cpp lines 51-54). -/
def add_handler (s : EIState) (d : Handler) : EIState :=
  { s with m_handlers := d :: s.m_handlers }

/-- Method `external_interrupt_handler::handle` (external_interrupt.cpp lines
96-116): read the vector from the exit-interruption-information field,
increment its counter when `!ndebug && m_log_enabled`, then dispatch the
chain; when no delegate claims the exit, throw
`std::runtime_error("Unhandled interrupt vector: ...")`.
Since the C++ members mutate in place, the post state is returned next
to the result even when the result is a thrown exception. -/
def handle (s : EIState) (ii : Nat) : EIState × Except String Bool :=
  let vector := vector_get ii
  match (if !s.ndebug && s.m_log_enabled then log_inc s.m_log vector
         else Except.ok s.m_log) with
  | Except.error e => (s, Except.error e)
  | Except.ok l =>
    let s' := { s with m_log := l }
    if (dispatch s'.m_handlers vector).2 then (s', Except.ok true)
    else (s', Except.error ("Unhandled interrupt vector: " ++ toString vector))

/-- A sequence of external-interrupt exits delivered to one handler
instance, each exit handled to completion before the next; a thrown
exception stops the sequence (the hypervisor terminates). -/
def handleAll (s : EIState) : List Nat → EIState × Except String Unit
  | [] => (s, Except.ok ())
  | ii :: rest =>
    match handle s ii with
    | (s', Except.ok _) => handleAll s' rest
    | (s', Except.error e) => (s', Except.error e)

/-- The entry collection loop of `external_interrupt_handler::dump_log`
(external_interrupt.cpp lines 82-86) over an explicit index list:
`m_log.at(i)` for each index, keeping the indices with positive count. -/
def dump_entries (log : List Nat) : List Nat → Except String (List (Nat × Nat))
  | [] => Except.ok []
  | i :: is =>
    match log_at log i with
    | Except.error e => Except.error e
    | Except.ok c =>
      match dump_entries log is with
      | Except.error e => Except.error e
      | Except.ok rest => Except.ok (if 0 < c then (i, c) :: rest else rest)

/-- Method `external_interrupt_handler::dump_log`: iterate i from 0 to 255 and
emit the nonzero counters. -/
def dump_log (s : EIState) : Except String (List (Nat × Nat)) :=
  dump_entries s.m_log (List.range 256)

/-- A freshly constructed external interrupt handler: empty chain, all
256 counters zero, logging off. -/
def mk_external_interrupt_handler (nd : Bool) : EIState :=
  { m_handlers := [], m_log := List.replicate 256 0
    m_log_enabled := false, ndebug := nd }

/-- Method `base::enable_log` on the handler: turn the logging flag on. -/
def enable_log (s : EIState) : EIState := { s with m_log_enabled := true }

/-! ## VMCS controls touched by enable_exiting / disable_exiting

`enable_exiting` (external_interrupt.cpp lines 56-61) calls
`pin_based_vm_execution_controls::external_interrupt_exiting::enable()`
and `vm_exit_controls::acknowledge_interrupt_on_exit::enable()`;
`disable_exiting` (lines 63-68) calls the two `disable()` accessors.
The bfvmcs accessors read the 64-bit control field, OR the bit mask in
(enable) or AND the complemented mask in (disable), and write it back.
External-interrupt exiting is bit 0 of the pin-based execution controls;
acknowledge-interrupt-on-exit is bit 15 of the VM-exit controls. -/

structure VmcsCtrls where
  pin_based_vm_execution_controls : Nat
  vm_exit_controls : Nat

/-- Bit mask of `external_interrupt_exiting` inside the pin-based
VM-execution controls field. -/
def external_interrupt_exiting_mask : Nat := 1

/-- Bit mask of `acknowledge_interrupt_on_exit` inside the VM-exit
controls field. -/
def acknowledge_interrupt_on_exit_mask : Nat := 0x8000

/-- Accessor `pin_based_vm_execution_controls::external_interrupt_exiting::enable()`. -/
def external_interrupt_exiting_enable (c : VmcsCtrls) : VmcsCtrls :=
  { c with pin_based_vm_execution_controls :=
      c.pin_based_vm_execution_controls ||| external_interrupt_exiting_mask }

/-- Accessor `pin_based_vm_execution_controls::external_interrupt_exiting::disable()`. -/
def external_interrupt_exiting_disable (c : VmcsCtrls) : VmcsCtrls :=
  { c with pin_based_vm_execution_controls :=
      c.pin_based_vm_execution_controls &&&
        (UINT64_MASK ^^^ external_interrupt_exiting_mask) }

/-- Accessor `vm_exit_controls::acknowledge_interrupt_on_exit::enable()`. -/
def acknowledge_interrupt_on_exit_enable (c : VmcsCtrls) : VmcsCtrls :=
  { c with vm_exit_controls :=
      c.vm_exit_controls ||| acknowledge_interrupt_on_exit_mask }

/-- Accessor `vm_exit_controls::acknowledge_interrupt_on_exit::disable()`. -/
def acknowledge_interrupt_on_exit_disable (c : VmcsCtrls) : VmcsCtrls :=
  { c with vm_exit_controls :=
      c.vm_exit_controls &&&
        (UINT64_MASK ^^^ acknowledge_interrupt_on_exit_mask) }

/-- Whether the external-interrupt-exiting control bit reads as set. -/
def external_interrupt_exiting_is_enabled (c : VmcsCtrls) : Bool :=
  c.pin_based_vm_execution_controls.testBit 0

/-- Whether the acknowledge-interrupt-on-exit control bit reads as set. -/
def acknowledge_interrupt_on_exit_is_enabled (c : VmcsCtrls) : Bool :=
  c.vm_exit_controls.testBit 15

/-- Method `external_interrupt_handler::enable_exiting` (external_interrupt.cpp
lines 56-61). -/
def enable_exiting (c : VmcsCtrls) : VmcsCtrls :=
  acknowledge_interrupt_on_exit_enable (external_interrupt_exiting_enable c)

/-- Method `external_interrupt_handler::disable_exiting` (external_interrupt.cpp
lines 63-68). -/
def disable_exiting (c : VmcsCtrls) : VmcsCtrls :=
  acknowledge_interrupt_on_exit_disable (external_interrupt_exiting_disable c)

/-- One call through the exiting API of the handler. -/
inductive ExitingOp where
  | enable : ExitingOp
  | disable : ExitingOp

/-- Apply one exiting API call to the VMCS controls. -/
def applyExitingOp (c : VmcsCtrls) : ExitingOp → VmcsCtrls
  | ExitingOp.enable => enable_exiting c
  | ExitingOp.disable => disable_exiting c

/-- Apply a sequence of exiting API calls, first call first. -/
def applyExitingOps (c : VmcsCtrls) (ops : List ExitingOp) : VmcsCtrls :=
  ops.foldl applyExitingOp c

/-! ## Control register virtualizer

Only the header `control_register.h` is among the reviewed sources: it
declares `info_t`, the four handler chains and the internal paths
`handle_wrcr0` / `handle_rdcr3` / `handle_wrcr3` / `handle_wrcr4`, and
documents the descriptor defaults, but the implementation file is
missing.  The path functions below are therefore modelled from the spec
(spec.md section 4.2 and section 8) and from the `info_t` field
documentation in control_register.h lines 51-103. -/

/-- Descriptor `control_register_handler::info_t` (control_register.h lines
51-103): the transient per-exit descriptor. -/
structure CRInfo where
  val : Nat
  shadow : Nat
  ignore_write : Bool
  ignore_advance : Bool
deriving DecidableEq

/-- Machine state seen by the control register virtualizer: the guest
control registers and read shadows, the guest instruction pointer, the
exit instruction length, the general purpose register file and the
source/destination register index decoded from the exit qualification. -/
structure CRState where
  guest_cr0 : Nat
  guest_cr3 : Nat
  guest_cr4 : Nat
  cr0_read_shadow : Nat
  cr4_read_shadow : Nat
  guest_rip : Nat
  vm_exit_instruction_length : Nat
  gprs : Fin 16 → Nat
  exit_gpr : Fin 16

/-- Helper `base::emulate_rdgpr`: read the general purpose register named by the
exit qualification. -/
def emulate_rdgpr (s : CRState) : Nat := s.gprs s.exit_gpr

/-- Helper `base::emulate_wrgpr`: write the general purpose register named by
the exit qualification. -/
def emulate_wrgpr (s : CRState) (v : Nat) : CRState :=
  { s with gprs := fun r => if r = s.exit_gpr then v else s.gprs r }

/-- Helper `base::advance`: advance the guest instruction pointer past the
trapping instruction (uint64_t addition wraps). -/
def advance_rip (s : CRState) : CRState :=
  { s with guest_rip :=
      (s.guest_rip + s.vm_exit_instruction_length) % UINT64_MOD }

/-- A control-register handler delegate.  The C++ delegate also receives
the vmcs pointer; the claims settled here concern only the descriptor, so
the modelled delegate maps the descriptor it receives to the (possibly
mutated) descriptor and the claim result. -/
def CRHandler : Type := CRInfo → CRInfo × Bool

/-- The dispatch loop shared by the four control-register chains: front
to back, stop at the first delegate returning true; descriptor mutations
made by non-claiming delegates persist (the C++ descriptor is passed by
reference). -/
def dispatchCR : List CRHandler → CRInfo → CRInfo × Bool
  | [], info => (info, false)
  | h :: rest, info =>
    match h info with
    | (info', true) => (info', true)
    | (info', false) => dispatchCR rest info'

/-- Modelled from the spec: `control_register_handler::handle_wrcr0`
(declared control_register.h line 253, implementation missing from the
reviewed sources).  Spec 4.2: descriptor defaults `val` =
emulated source-register read, `shadow` = current CR0 read shadow; run
the write-CR0 chain; unclaimed returns false with the descriptor
discarded; on claim, unless `ignore_write`, write `val` to guest CR0 and
`shadow` to the CR0 read shadow; unless `ignore_advance`, advance the
guest instruction pointer. -/
def handle_wrcr0 (hs : List CRHandler) (s : CRState) : CRState × Bool :=
  let info : CRInfo :=
    { val := emulate_rdgpr s, shadow := s.cr0_read_shadow
      ignore_write := false, ignore_advance := false }
  match dispatchCR hs info with
  | (_, false) => (s, false)
  | (i, true) =>
    let s1 := if i.ignore_write then s
              else { s with guest_cr0 := i.val, cr0_read_shadow := i.shadow }
    (if i.ignore_advance then s1 else advance_rip s1, true)

/-- Modelled from the spec: `control_register_handler::handle_rdcr3`
(declared control_register.h line 254, implementation missing from the
reviewed sources).  Spec 4.2: defaults `val` = current guest CR3 field,
`shadow` = 0; on claim, unless `ignore_write`, write `val` to the guest
destination general purpose register; advance semantics as for writes. -/
def handle_rdcr3 (hs : List CRHandler) (s : CRState) : CRState × Bool :=
  let info : CRInfo :=
    { val := s.guest_cr3, shadow := 0
      ignore_write := false, ignore_advance := false }
  match dispatchCR hs info with
  | (_, false) => (s, false)
  | (i, true) =>
    let s1 := if i.ignore_write then s else emulate_wrgpr s i.val
    (if i.ignore_advance then s1 else advance_rip s1, true)

/-- Modelled from the spec: `control_register_handler::handle_wrcr3`
(declared control_register.h line 255, implementation missing from the
reviewed sources).  Spec 4.2: defaults `val` = emulated source-register
read, `shadow` = 0; on claim, unless `ignore_write`, write `val` to the
guest CR3 field (CR3 has no read shadow); advance semantics as above. -/
def handle_wrcr3 (hs : List CRHandler) (s : CRState) : CRState × Bool :=
  let info : CRInfo :=
    { val := emulate_rdgpr s, shadow := 0
      ignore_write := false, ignore_advance := false }
  match dispatchCR hs info with
  | (_, false) => (s, false)
  | (i, true) =>
    let s1 := if i.ignore_write then s else { s with guest_cr3 := i.val }
    (if i.ignore_advance then s1 else advance_rip s1, true)

/-- Modelled from the spec: `control_register_handler::handle_wrcr4`
(declared control_register.h line 256, implementation missing from the
reviewed sources).  Spec 4.2: as write CR0 with the CR4 fields. -/
def handle_wrcr4 (hs : List CRHandler) (s : CRState) : CRState × Bool :=
  let info : CRInfo :=
    { val := emulate_rdgpr s, shadow := s.cr4_read_shadow
      ignore_write := false, ignore_advance := false }
  match dispatchCR hs info with
  | (_, false) => (s, false)
  | (i, true) =>
    let s1 := if i.ignore_write then s
              else { s with guest_cr4 := i.val, cr4_read_shadow := i.shadow }
    (if i.ignore_advance then s1 else advance_rip s1, true)

/-- A delegate that claims the exit exactly when the descriptor it
receives equals `expected`, leaving the descriptor unchanged; used to
observe the descriptor handed to the front of a chain. -/
def check_handler (expected : CRInfo) : CRHandler :=
  fun i => (i, decide (i = expected))

/-- A delegate that overwrites every descriptor field and claims the
exit. -/
def const_handler (i : CRInfo) : CRHandler := fun _ => (i, true)

/-- The guest register state (control registers and general purpose
registers) of two machine states agree; read shadows and the instruction
pointer are not part of the guest register state. -/
def guest_regs_eq (s t : CRState) : Prop :=
  s.guest_cr0 = t.guest_cr0 ∧ s.guest_cr3 = t.guest_cr3 ∧
    s.guest_cr4 = t.guest_cr4 ∧ s.gprs = t.gprs

/-- The counter table after `m_log.at(i)++` on an in-bounds index. -/
def bump (log : List Nat) (i : Nat) : List Nat :=
  log.set i ((log.getD i 0 + 1) % UINT64_MOD)

/-- Concrete delegate that claims every vector. -/
def exH1 : Handler := ⟨1, fun _ => true⟩

/-- Concrete delegate that claims no vector. -/
def exH2 : Handler := ⟨2, fun _ => false⟩

/-- A handler instance with one claim-everything delegate and logging
active. -/
def exEIS : EIState :=
  { m_handlers := [⟨0, fun _ => true⟩], m_log := List.replicate 256 0
    m_log_enabled := true, ndebug := false }

/-- The same instance with logging inactive. -/
def exEISOff : EIState :=
  { m_handlers := [⟨0, fun _ => true⟩], m_log := List.replicate 256 0
    m_log_enabled := false, ndebug := false }

/-! ## Handler chain lemmas -/

/-- A delegate at the front that claims stops dispatch at once. -/
theorem dispatch_cons_claim (h : Handler) (t : List Handler) (v : Nat)
    (hc : h.f v = true) : dispatch (h :: t) v = ([h], true) := by
  simp [dispatch, hc]

/-- A non-claiming delegate at the front is invoked and dispatch
continues behind it. -/
theorem dispatch_cons_noclaim (h : Handler) (t : List Handler) (v : Nat)
    (hc : h.f v = false) :
    dispatch (h :: t) v = (h :: (dispatch t v).1, (dispatch t v).2) := by
  simp [dispatch, hc]

/-- A prefix of non-claiming delegates is traversed whole. -/
theorem dispatch_append_noclaim (pre rest : List Handler) (v : Nat)
    (hpre : ∀ g ∈ pre, g.f v = false) :
    dispatch (pre ++ rest) v =
      (pre ++ (dispatch rest v).1, (dispatch rest v).2) := by
  induction pre with
  | nil => simp
  | cons g pre ih =>
    have hg : g.f v = false := hpre g (by simp)
    rw [List.cons_append, dispatch_cons_noclaim g (pre ++ rest) v hg,
      ih (fun x hx => hpre x (by simp [hx]))]
    simp

/-- A chain of delegates none of which claims is traversed whole and
dispatch returns false. -/
theorem dispatch_noclaim (hs : List Handler) (v : Nat)
    (hno : ∀ g ∈ hs, g.f v = false) : dispatch hs v = (hs, false) := by
  have := dispatch_append_noclaim hs [] v hno
  simpa [dispatch] using this

/-- If a delegate not among the first `pre` delegates is invoked, every
delegate of `pre` was invoked before it. -/
theorem dispatch_mem_after_front (pre rest : List Handler) (v : Nat)
    (H1 : Handler) (hnm : H1 ∉ pre)
    (hmem : H1 ∈ (dispatch (pre ++ rest) v).1) :
    ∃ t, (dispatch (pre ++ rest) v).1 = pre ++ t ∧ H1 ∈ t := by
  induction pre with
  | nil => exact ⟨(dispatch rest v).1, rfl, by simpa using hmem⟩
  | cons g pre ih =>
    have hne : H1 ≠ g := fun e => hnm (by simp [e])
    cases hgv : g.f v with
    | true =>
      rw [List.cons_append, dispatch_cons_claim g (pre ++ rest) v hgv] at hmem
      simp at hmem
      exact absurd hmem hne
    | false =>
      rw [List.cons_append, dispatch_cons_noclaim g (pre ++ rest) v hgv] at hmem
      have hmem' : H1 ∈ (dispatch (pre ++ rest) v).1 := by
        rcases List.mem_cons.mp hmem with e | m
        · exact absurd e hne
        · exact m
      obtain ⟨t, ht, hmt⟩ := ih (fun e => hnm (List.mem_cons_of_mem g e)) hmem'
      refine ⟨t, ?_, hmt⟩
      rw [List.cons_append, dispatch_cons_noclaim g (pre ++ rest) v hgv]
      simp [ht]

/-! ## Claim theorems: handler chain ordering -/

/-- C1: registration prepends to the chain and dispatch iterates front to
back, so callbacks run most-recently-registered-first.  For a chain in
which H2 sits in front of H1 (H1 was registered before H2, with `a`
registered after H2, `b` between them and `c` before H1): first,
registration is a prepend; second, whenever H1 is invoked, every
delegate up to and including H2 was invoked before it; third, when only
H1 claims, H2 still runs, returns false, and H1 is tried last and the
dispatch returns true. -/
theorem ei_dispatch_last_registered_first
    (s : EIState) (d : Handler)
    (a b c : List Handler) (H1 H2 : Handler) (v : Nat)
    (h1a : H1 ∉ a) (h12 : H1 ≠ H2) :
    (add_handler s d).m_handlers = d :: s.m_handlers
  ∧ (H1 ∈ (dispatch (a ++ H2 :: b ++ H1 :: c) v).1 →
      ∃ t, (dispatch (a ++ H2 :: b ++ H1 :: c) v).1 = (a ++ [H2]) ++ t ∧ H1 ∈ t)
  ∧ ((∀ g ∈ a ++ H2 :: b, g.f v = false) → H1.f v = true →
      dispatch (a ++ H2 :: b ++ H1 :: c) v = ((a ++ H2 :: b) ++ [H1], true)) := by
  refine ⟨rfl, ?_, ?_⟩
  · intro hmem
    have hnm : H1 ∉ a ++ [H2] := by
      intro hx
      rcases List.mem_append.mp hx with hx | hx
      · exact h1a hx
      · exact h12 (by simpa using hx)
    have hshape : a ++ H2 :: b ++ H1 :: c = (a ++ [H2]) ++ (b ++ H1 :: c) := by simp
    rw [hshape] at hmem ⊢
    exact dispatch_mem_after_front (a ++ [H2]) (b ++ H1 :: c) v H1 hnm hmem
  · intro hno h1c
    have hshape : a ++ H2 :: b ++ H1 :: c = (a ++ H2 :: b) ++ H1 :: c := by simp
    rw [hshape, dispatch_append_noclaim (a ++ H2 :: b) (H1 :: c) v hno,
      dispatch_cons_claim H1 c v h1c]

/-- Witness for C1: H1 (claims) registered before H2 (declines) on an
otherwise empty chain; dispatching vector 0 runs H2 first, H2 returns
false, then H1 claims. -/
theorem ei_dispatch_last_registered_first_witness :
    ((add_handler (mk_external_interrupt_handler false) exH2).m_handlers
        = exH2 :: (mk_external_interrupt_handler false).m_handlers
  ∧ (exH1 ∈ (dispatch ([] ++ exH2 :: [] ++ exH1 :: []) 0).1 →
      ∃ t, (dispatch ([] ++ exH2 :: [] ++ exH1 :: []) 0).1 = ([] ++ [exH2]) ++ t ∧ exH1 ∈ t)
  ∧ ((∀ g ∈ [] ++ exH2 :: [], g.f 0 = false) → exH1.f 0 = true →
      dispatch ([] ++ exH2 :: [] ++ exH1 :: []) 0 = (([] ++ exH2 :: []) ++ [exH1], true))) :=
  ei_dispatch_last_registered_first (mk_external_interrupt_handler false) exH2
    [] [] [] exH1 exH2 0 (by simp)
    (fun e => by simpa [exH1, exH2] using congrArg Handler.id e)

/-- C3: dispatch stops at the first claiming callback: with a prefix of
declining delegates in front of a claiming delegate, exactly the prefix
and the claimer are invoked (nothing positioned after the claimer runs)
and the dispatch result is true. -/
theorem ei_dispatch_stops_at_first_claim
    (pre post : List Handler) (h : Handler) (v : Nat)
    (hpre : ∀ g ∈ pre, g.f v = false) (hcl : h.f v = true) :
    dispatch (pre ++ h :: post) v = (pre ++ [h], true) := by
  rw [dispatch_append_noclaim pre (h :: post) v hpre, dispatch_cons_claim h post v hcl]

/-- Witness for C3: chain [declining, claiming, claiming]; dispatch
invokes only the first two delegates and returns true. -/
theorem ei_dispatch_stops_at_first_claim_witness :
    dispatch ([exH2] ++ exH1 :: [⟨3, fun _ => true⟩]) 0 = ([exH2] ++ [exH1], true) :=
  ei_dispatch_stops_at_first_claim [exH2] [⟨3, fun _ => true⟩] exH1 0
    (by simp [exH2]) (by simp [exH1])

/-! ## Claim theorems: external interrupt handle -/

/-- C2: an external-interrupt exit that no registered handler claims does
not return normally: `handle` ends in a thrown exception (modelled as
`Except.error`), which the hypervisor treats as fatal, instead of
returning a boolean to the caller. -/
theorem ei_unclaimed_interrupt_fatal (s : EIState) (ii : Nat)
    (hnoclaim : ∀ d ∈ s.m_handlers, d.f (vector_get ii) = false) :
    ∃ msg, (handle s ii).2 = Except.error msg := by
  have hd : (dispatch s.m_handlers (vector_get ii)).2 = false := by
    rw [dispatch_noclaim s.m_handlers (vector_get ii) hnoclaim]
  by_cases hc : (!s.ndebug && s.m_log_enabled) = true
  · cases hlc : log_inc s.m_log (vector_get ii) with
    | error e => refine ⟨e, ?_⟩; simp [handle, hc, hlc]
    | ok l =>
      refine ⟨"Unhandled interrupt vector: " ++ toString (vector_get ii), ?_⟩
      simp [handle, hc, hlc, hd]
  · refine ⟨"Unhandled interrupt vector: " ++ toString (vector_get ii), ?_⟩
    simp [handle, hc, hd]

/-- Witness for C2: vector 200 dispatched through the empty chain of a
freshly constructed handler ends in a thrown exception. -/
theorem ei_unclaimed_interrupt_fatal_witness :
    ∃ msg, (handle (mk_external_interrupt_handler false) 200).2 = Except.error msg :=
  ei_unclaimed_interrupt_fatal (mk_external_interrupt_handler false) 200
    (fun d hd => absurd hd (List.not_mem_nil d))

/-- The collection loop of dump_log succeeds when every index it visits
is in bounds, and every emitted entry carries one of the visited
indices. -/
theorem dump_entries_ok (log : List Nat) (idxs : List Nat)
    (hb : ∀ i ∈ idxs, i < log.length) :
    ∃ es, dump_entries log idxs = Except.ok es ∧ ∀ p ∈ es, p.1 ∈ idxs := by
  induction idxs with
  | nil => exact ⟨[], rfl, by simp⟩
  | cons i is ih =>
    obtain ⟨es, hes, hmem⟩ := ih (fun j hj => hb j (by simp [hj]))
    have hi : i < log.length := hb i (by simp)
    refine ⟨if 0 < log.getD i 0 then (i, log.getD i 0) :: es else es, ?_, ?_⟩
    · simp [dump_entries, log_at, hi, hes]
    · intro p hp
      by_cases h0 : 0 < log.getD i 0
      · rw [if_pos h0] at hp
        rcases List.mem_cons.mp hp with rfl | hp
        · simp
        · exact List.mem_cons_of_mem i (hmem p hp)
      · rw [if_neg h0] at hp
        exact List.mem_cons_of_mem i (hmem p hp)

/-- C9: the vector read from the exit-interruption-information field is
an 8-bit quantity, so on the 256-entry counter table the checked access
`m_log.at(info.vector)` always succeeds, `handle` can only throw the
unhandled-vector error (never `std::out_of_range`), and `dump_log` only
accesses indices 0 through 255. -/
theorem ei_vector_in_bounds (s : EIState) (ii : Nat)
    (hlen : s.m_log.length = 256) :
    vector_get ii < 256
  ∧ (∃ l, log_inc s.m_log (vector_get ii) = Except.ok l)
  ∧ (∀ e, (handle s ii).2 = Except.error e →
      e = "Unhandled interrupt vector: " ++ toString (vector_get ii))
  ∧ (∃ entries, dump_log s = Except.ok entries ∧ ∀ p ∈ entries, p.1 < 256) := by
  have hv : vector_get ii < 256 := Nat.mod_lt _ (by norm_num)
  have hvl : vector_get ii < s.m_log.length := by rw [hlen]; exact hv
  have hlc : log_inc s.m_log (vector_get ii) =
      Except.ok (s.m_log.set (vector_get ii)
        ((s.m_log.getD (vector_get ii) 0 + 1) % UINT64_MOD)) := by
    simp [log_inc, hvl]
  refine ⟨hv, ⟨_, hlc⟩, ?_, ?_⟩
  · intro e he
    by_cases hc : (!s.ndebug && s.m_log_enabled) = true
    · by_cases hdp : (dispatch s.m_handlers (vector_get ii)).2 = true
      · simp [handle, hc, hlc, hdp] at he
      · simp [handle, hc, hlc, hdp] at he
        exact he.symm
    · by_cases hdp : (dispatch s.m_handlers (vector_get ii)).2 = true
      · simp [handle, hc, hdp] at he
      · simp [handle, hc, hdp] at he
        exact he.symm
  · obtain ⟨es, hes, hmem⟩ := dump_entries_ok s.m_log (List.range 256)
      (fun i hi => by rw [hlen]; exact List.mem_range.mp hi)
    exact ⟨es, hes, fun p hp => List.mem_range.mp (hmem p hp)⟩

/-- Witness for C9 at a fresh handler and the raw interruption
information value 1000 (vector 232). -/
theorem ei_vector_in_bounds_witness :
    vector_get 1000 < 256
  ∧ (∃ l, log_inc (mk_external_interrupt_handler false).m_log (vector_get 1000) = Except.ok l)
  ∧ (∀ e, (handle (mk_external_interrupt_handler false) 1000).2 = Except.error e →
      e = "Unhandled interrupt vector: " ++ toString (vector_get 1000))
  ∧ (∃ entries, dump_log (mk_external_interrupt_handler false) = Except.ok entries
      ∧ ∀ p ∈ entries, p.1 < 256) :=
  ei_vector_in_bounds (mk_external_interrupt_handler false) 1000
    (List.length_replicate 256 0)

/-- C10: with logging enabled, `handle` increments the delivered
counter of the delivered vector before dispatching the chain, so the post state carries
the incremented counter no matter how dispatch ends; in particular an
exit no handler claims still throws with the counter already
incremented — the log mutation is not rolled back. -/
theorem ei_log_increment_survives_abort (s : EIState) (ii : Nat)
    (hnd : s.ndebug = false) (hen : s.m_log_enabled = true)
    (hlen : s.m_log.length = 256) :
    (handle s ii).1.m_log =
      s.m_log.set (vector_get ii) ((s.m_log.getD (vector_get ii) 0 + 1) % UINT64_MOD)
  ∧ ((∀ d ∈ s.m_handlers, d.f (vector_get ii) = false) →
      (handle s ii).2 =
        Except.error ("Unhandled interrupt vector: " ++ toString (vector_get ii))) := by
  have hv : vector_get ii < s.m_log.length := by
    rw [hlen]; exact Nat.mod_lt _ (by norm_num)
  have hcond : (!s.ndebug && s.m_log_enabled) = true := by rw [hnd, hen]; rfl
  have hlc : log_inc s.m_log (vector_get ii) =
      Except.ok (s.m_log.set (vector_get ii)
        ((s.m_log.getD (vector_get ii) 0 + 1) % UINT64_MOD)) := by
    simp [log_inc, hv]
  constructor
  · by_cases hdp : (dispatch s.m_handlers (vector_get ii)).2 = true <;>
      simp [handle, hcond, hlc, hdp]
  · intro hno
    have hd : (dispatch s.m_handlers (vector_get ii)).2 = false := by
      rw [dispatch_noclaim s.m_handlers (vector_get ii) hno]
    simp [handle, hcond, hlc, hd]

/-- Witness for C10: fresh handler with logging on, empty chain, vector
200: the counter is incremented and the exit throws. -/
theorem ei_log_increment_survives_abort_witness :
    ((handle (enable_log (mk_external_interrupt_handler false)) 200).1.m_log =
      (enable_log (mk_external_interrupt_handler false)).m_log.set (vector_get 200)
        (((enable_log (mk_external_interrupt_handler false)).m_log.getD (vector_get 200) 0 + 1)
          % UINT64_MOD))
  ∧ ((∀ d ∈ (enable_log (mk_external_interrupt_handler false)).m_handlers,
        d.f (vector_get 200) = false) →
      (handle (enable_log (mk_external_interrupt_handler false)) 200).2 =
        Except.error ("Unhandled interrupt vector: " ++ toString (vector_get 200))) :=
  ei_log_increment_survives_abort (enable_log (mk_external_interrupt_handler false)) 200
    rfl rfl (List.length_replicate 256 0)

/-- On an in-bounds index, the checked increment succeeds and yields
`bump`. -/
theorem log_inc_eq_bump (log : List Nat) (i : Nat) (h : i < log.length) :
    log_inc log i = Except.ok (bump log i) := by
  simp [log_inc, bump, h]

/-- The map `bump` preserves the table length. -/
theorem bump_length (log : List Nat) (i : Nat) :
    (bump log i).length = log.length := by
  simp [bump]

/-- Reading the bumped index (when the increment does not wrap). -/
theorem bump_getD_self (log : List Nat) (i : Nat) (h : i < log.length)
    (hlt : log.getD i 0 + 1 < UINT64_MOD) :
    (bump log i).getD i 0 = log.getD i 0 + 1 := by
  rw [bump, Nat.mod_eq_of_lt hlt]
  simp [List.getD_eq_getElem?_getD, List.getElem?_set_self', h]

/-- Reading any other index is unchanged by `bump`. -/
theorem bump_getD_ne (log : List Nat) (i j : Nat) (h : i ≠ j) :
    (bump log i).getD j 0 = log.getD j 0 := by
  simp [bump, List.getD_eq_getElem?_getD, List.getElem?_set_ne, h]

/-- Shape of `handle` when logging is active: the counter of the
delivered vector is incremented and the result reflects dispatch. -/
theorem handle_enabled (s : EIState) (ii : Nat) (hnd : s.ndebug = false)
    (hen : s.m_log_enabled = true) (hv : vector_get ii < s.m_log.length) :
    handle s ii =
      ({ s with m_log := bump s.m_log (vector_get ii) },
       if (dispatch s.m_handlers (vector_get ii)).2 then Except.ok true
       else Except.error ("Unhandled interrupt vector: " ++ toString (vector_get ii))) := by
  have hcond : (!s.ndebug && s.m_log_enabled) = true := by rw [hnd, hen]; rfl
  have hlc := log_inc_eq_bump s.m_log (vector_get ii) hv
  by_cases hdp : (dispatch s.m_handlers (vector_get ii)).2 = true <;>
    simp [handle, hcond, hlc, hdp]

/-- With logging active, a fully handled exit sequence adds, to each
counter of each vector, the number of exits delivered with that vector. -/
theorem handleAll_count (iis : List Nat) : ∀ s : EIState,
    s.ndebug = false → s.m_log_enabled = true → s.m_log.length = 256 →
    (handleAll s iis).2 = Except.ok () →
    ∀ v, v < 256 →
      s.m_log.getD v 0 + (iis.map vector_get).count v < UINT64_MOD →
      (handleAll s iis).1.m_log.getD v 0 =
        s.m_log.getD v 0 + (iis.map vector_get).count v := by
  induction iis with
  | nil => intro s _ _ _ _ v _ _; simp [handleAll]
  | cons ii rest ih =>
    intro s hnd hen hlen hok v hvlt hbound
    have hv : vector_get ii < s.m_log.length := by
      rw [hlen]; exact Nat.mod_lt _ (by norm_num)
    have hh := handle_enabled s ii hnd hen hv
    by_cases hdp : (dispatch s.m_handlers (vector_get ii)).2 = true
    · have hstep : handleAll s (ii :: rest) =
          handleAll { s with m_log := bump s.m_log (vector_get ii) } rest := by
        simp [handleAll, hh, hdp]
      rw [hstep] at hok ⊢
      by_cases hveq : v = vector_get ii
      · have hcount : ((ii :: rest).map vector_get).count v =
            (rest.map vector_get).count v + 1 := by
          simp [List.count_cons, hveq]
        have hlt1 : s.m_log.getD v 0 + 1 < UINT64_MOD := by
          rw [hcount] at hbound; omega
        have hget : (bump s.m_log (vector_get ii)).getD v 0 = s.m_log.getD v 0 + 1 := by
          rw [hveq] at hlt1 ⊢
          exact bump_getD_self s.m_log (vector_get ii) hv hlt1
        have hlen1 : (bump s.m_log (vector_get ii)).length = 256 := by
          rw [bump_length, hlen]
        have hb1 : (bump s.m_log (vector_get ii)).getD v 0 +
            (rest.map vector_get).count v < UINT64_MOD := by
          rw [hget]; rw [hcount] at hbound; omega
        have hrec := ih { s with m_log := bump s.m_log (vector_get ii) }
          hnd hen hlen1 hok v hvlt hb1
        rw [hcount, hrec]
        dsimp only
        rw [hget]
        omega
      · have hcount : ((ii :: rest).map vector_get).count v =
            (rest.map vector_get).count v := by
          simp [List.count_cons, hveq]
        have hget : (bump s.m_log (vector_get ii)).getD v 0 = s.m_log.getD v 0 :=
          bump_getD_ne s.m_log (vector_get ii) v (fun e => hveq e.symm)
        have hlen1 : (bump s.m_log (vector_get ii)).length = 256 := by
          rw [bump_length, hlen]
        have hb1 : (bump s.m_log (vector_get ii)).getD v 0 +
            (rest.map vector_get).count v < UINT64_MOD := by
          rw [hget]; rw [hcount] at hbound; omega
        have hrec := ih { s with m_log := bump s.m_log (vector_get ii) }
          hnd hen hlen1 hok v hvlt hb1
        rw [hcount, hrec]
        dsimp only
        rw [hget]
    · exfalso
      have herr : (handleAll s (ii :: rest)).2 =
          Except.error ("Unhandled interrupt vector: " ++ toString (vector_get ii)) := by
        simp [handleAll, hh, hdp]
      rw [hok] at herr
      exact Except.noConfusion herr

/-- With logging inactive, no exit sequence changes any counter. -/
theorem handleAll_log_disabled (iis : List Nat) : ∀ s : EIState,
    s.ndebug = true ∨ s.m_log_enabled = false →
    (handleAll s iis).1.m_log = s.m_log := by
  induction iis with
  | nil => intro s _; rfl
  | cons ii rest ih =>
    intro s hoff
    have hcond : (!s.ndebug && s.m_log_enabled) = false := by
      rcases hoff with h | h <;> simp [h]
    by_cases hdp : (dispatch s.m_handlers (vector_get ii)).2 = true
    · have hstep : handleAll s (ii :: rest) = handleAll s rest := by
        simp [handleAll, handle, hcond, hdp]
      rw [hstep]
      exact ih s hoff
    · have hstep : (handleAll s (ii :: rest)).1 = s := by
        simp [handleAll, handle, hcond, hdp]
      rw [hstep]

/-- C5: with logging enabled, after a fully handled exit sequence each
per-vector counter holds its initial value plus exactly the number of
exits delivered with that vector (the wrap hypothesis records that the
uint64_t counter does not overflow); with logging disabled, the counters
never change regardless of exit volume. -/
theorem ei_per_vector_counting (s : EIState) (iis : List Nat) :
    (s.ndebug = false → s.m_log_enabled = true → s.m_log.length = 256 →
      (handleAll s iis).2 = Except.ok () →
      ∀ v, v < 256 →
        s.m_log.getD v 0 + (iis.map vector_get).count v < UINT64_MOD →
        (handleAll s iis).1.m_log.getD v 0 =
          s.m_log.getD v 0 + (iis.map vector_get).count v)
  ∧ (s.ndebug = true ∨ s.m_log_enabled = false →
      (handleAll s iis).1.m_log = s.m_log) :=
  ⟨fun hnd hen hlen hok v hvlt hb => handleAll_count iis s hnd hen hlen hok v hvlt hb,
   fun hoff => handleAll_log_disabled iis s hoff⟩

set_option maxRecDepth 40000 in
/-- Witness for C5: three exits for vector 34 and one for vector 200;
with logging on, counter 34 ends at its initial value plus 3; with
logging off, the whole table is unchanged. -/
theorem ei_per_vector_counting_witness :
    ((handleAll exEIS [34, 34, 34, 200]).1.m_log.getD 34 0 =
      exEIS.m_log.getD 34 0 + (([34, 34, 34, 200].map vector_get).count 34))
  ∧ (handleAll exEISOff [34, 34, 34, 200]).1.m_log = exEISOff.m_log :=
  ⟨(ei_per_vector_counting exEIS [34, 34, 34, 200]).1 rfl rfl
      (List.length_replicate 256 0) rfl 34 (by norm_num) (by decide),
   (ei_per_vector_counting exEISOff [34, 34, 34, 200]).2 (Or.inr rfl)⟩

/-! ## Claim theorems: coupled exiting controls -/

/-- After `enable_exiting` both control bits read as set. -/
theorem enable_exiting_both_set (c : VmcsCtrls) :
    external_interrupt_exiting_is_enabled (enable_exiting c) = true
  ∧ acknowledge_interrupt_on_exit_is_enabled (enable_exiting c) = true := by
  constructor
  · show ((c.pin_based_vm_execution_controls ||| external_interrupt_exiting_mask).testBit 0) = true
    rw [Nat.testBit_lor]
    simp [external_interrupt_exiting_mask]
  · show ((c.vm_exit_controls ||| acknowledge_interrupt_on_exit_mask).testBit 15) = true
    rw [Nat.testBit_lor]
    have : acknowledge_interrupt_on_exit_mask.testBit 15 = true := by decide
    simp [this]

/-- After `disable_exiting` both control bits read as clear. -/
theorem disable_exiting_both_clear (c : VmcsCtrls) :
    external_interrupt_exiting_is_enabled (disable_exiting c) = false
  ∧ acknowledge_interrupt_on_exit_is_enabled (disable_exiting c) = false := by
  constructor
  · show ((c.pin_based_vm_execution_controls &&&
      (UINT64_MASK ^^^ external_interrupt_exiting_mask)).testBit 0) = false
    rw [Nat.testBit_land]
    have : (UINT64_MASK ^^^ external_interrupt_exiting_mask).testBit 0 = false := by decide
    simp [this]
  · show ((c.vm_exit_controls &&&
      (UINT64_MASK ^^^ acknowledge_interrupt_on_exit_mask)).testBit 15) = false
    rw [Nat.testBit_land]
    have : (UINT64_MASK ^^^ acknowledge_interrupt_on_exit_mask).testBit 15 = false := by decide
    simp [this]

/-- C4: `enable_exiting` turns on both the external-interrupt-exiting
control and the acknowledge-interrupt-on-exit control, `disable_exiting`
turns off both, and in every state produced by at least one call through
this API the two controls read equal — no reachable state has exactly
one of the two set. -/
theorem ei_enable_disable_coupled (c : VmcsCtrls) (ops : List ExitingOp)
    (hne : ops ≠ []) :
    (external_interrupt_exiting_is_enabled (enable_exiting c) = true
      ∧ acknowledge_interrupt_on_exit_is_enabled (enable_exiting c) = true)
  ∧ (external_interrupt_exiting_is_enabled (disable_exiting c) = false
      ∧ acknowledge_interrupt_on_exit_is_enabled (disable_exiting c) = false)
  ∧ external_interrupt_exiting_is_enabled (applyExitingOps c ops)
      = acknowledge_interrupt_on_exit_is_enabled (applyExitingOps c ops) := by
  refine ⟨enable_exiting_both_set c, disable_exiting_both_clear c, ?_⟩
  rcases List.eq_nil_or_concat' ops with rfl | ⟨L, b, rfl⟩
  · exact absurd rfl hne
  · rw [applyExitingOps, List.foldl_append]
    cases b with
    | enable =>
      have h := enable_exiting_both_set (List.foldl applyExitingOp c L)
      simp only [List.foldl_cons, List.foldl_nil, applyExitingOp]
      rw [h.1, h.2]
    | disable =>
      have h := disable_exiting_both_clear (List.foldl applyExitingOp c L)
      simp only [List.foldl_cons, List.foldl_nil, applyExitingOp]
      rw [h.1, h.2]

/-- Witness for C4 at controls fields 0x16 and 0x0 and the single call
sequence [disable]. -/
theorem ei_enable_disable_coupled_witness :
    (external_interrupt_exiting_is_enabled (enable_exiting ⟨0x16, 0⟩) = true
      ∧ acknowledge_interrupt_on_exit_is_enabled (enable_exiting ⟨0x16, 0⟩) = true)
  ∧ (external_interrupt_exiting_is_enabled (disable_exiting ⟨0x16, 0⟩) = false
      ∧ acknowledge_interrupt_on_exit_is_enabled (disable_exiting ⟨0x16, 0⟩) = false)
  ∧ external_interrupt_exiting_is_enabled (applyExitingOps ⟨0x16, 0⟩ [ExitingOp.disable])
      = acknowledge_interrupt_on_exit_is_enabled (applyExitingOps ⟨0x16, 0⟩ [ExitingOp.disable]) :=
  ei_enable_disable_coupled ⟨0x16, 0⟩ [ExitingOp.disable] (by simp)

/-! ## Claim theorems: control register descriptor and apply semantics -/

/-- C6: each direction hands its chain a descriptor initialized with the
direction-specific defaults: a front delegate that claims exactly when
its descriptor equals the documented defaults (write CR0/CR4: `val` =
emulated source-register read, `shadow` = current read shadow of that
register; read CR3: `val` = guest CR3 field, `shadow` = 0; write CR3:
`val` = emulated source-register read, `shadow` = 0; `ignore_write` and
`ignore_advance` false) sees its test succeed on every machine state. -/
theorem cr_descriptor_defaults (s : CRState) :
    (handle_wrcr0 [check_handler ⟨emulate_rdgpr s, s.cr0_read_shadow, false, false⟩] s).2 = true
  ∧ (handle_wrcr4 [check_handler ⟨emulate_rdgpr s, s.cr4_read_shadow, false, false⟩] s).2 = true
  ∧ (handle_rdcr3 [check_handler ⟨s.guest_cr3, 0, false, false⟩] s).2 = true
  ∧ (handle_wrcr3 [check_handler ⟨emulate_rdgpr s, 0, false, false⟩] s).2 = true := by
  refine ⟨?_, ?_, ?_, ?_⟩ <;>
    simp [handle_wrcr0, handle_wrcr4, handle_rdcr3, handle_wrcr3,
      dispatchCR, check_handler]

/-- C7: a write-CR0 exit claimed by a handler that sets
`val = 0x80000011`, `shadow = 0x00000001`, `ignore_write = false`,
`ignore_advance = false` leaves guest CR0 at 0x80000011, the CR0 read
shadow at 0x00000001, the instruction pointer advanced by the trapping
instruction length, everything else untouched, and returns true. -/
theorem cr_wrcr0_apply (s : CRState) :
    handle_wrcr0 [const_handler ⟨0x80000011, 0x00000001, false, false⟩] s =
      ({ s with
          guest_cr0 := 0x80000011
          cr0_read_shadow := 0x00000001
          guest_rip := (s.guest_rip + s.vm_exit_instruction_length) % UINT64_MOD }, true) := by
  simp [handle_wrcr0, dispatchCR, const_handler, advance_rip]

/-- C8: a claimed control-register exit whose final descriptor has
`ignore_write = true` leaves the guest register state (CR0, CR3, CR4 and
the general purpose registers) unchanged by the virtualizer on every
path, even though the dispatch returns true. -/
theorem cr_ignore_write_honored (s : CRState) (v sh : Nat) (adv : Bool) :
    (guest_regs_eq (handle_wrcr0 [const_handler ⟨v, sh, true, adv⟩] s).1 s
      ∧ (handle_wrcr0 [const_handler ⟨v, sh, true, adv⟩] s).2 = true)
  ∧ (guest_regs_eq (handle_rdcr3 [const_handler ⟨v, sh, true, adv⟩] s).1 s
      ∧ (handle_rdcr3 [const_handler ⟨v, sh, true, adv⟩] s).2 = true)
  ∧ (guest_regs_eq (handle_wrcr3 [const_handler ⟨v, sh, true, adv⟩] s).1 s
      ∧ (handle_wrcr3 [const_handler ⟨v, sh, true, adv⟩] s).2 = true)
  ∧ (guest_regs_eq (handle_wrcr4 [const_handler ⟨v, sh, true, adv⟩] s).1 s
      ∧ (handle_wrcr4 [const_handler ⟨v, sh, true, adv⟩] s).2 = true) := by
  cases adv <;>
    refine ⟨⟨?_, rfl⟩, ⟨?_, rfl⟩, ⟨?_, rfl⟩, ⟨?_, rfl⟩⟩ <;>
      simp [handle_wrcr0, handle_rdcr3, handle_wrcr3, handle_wrcr4,
        dispatchCR, const_handler, advance_rip, guest_regs_eq]
